import Mathlib

/-!
Verification of the backend orchestration state machine of construct-hub
(src/backend/orchestration/index.ts).

The orchestration construct builds an AWS Step Functions state machine:

  Track Execution Infos (Pass)
    -> DocGen (Parallel over SUPPORTED_LANGUAGES, resultPath $.DocGen)
    -> Any Success? (Choice over isNotPresent($.DocGen[i].error))
         true  -> Add to catalog.json (LambdaInvoke, retry TooManyRequests x5,
                  catch -> Pass(StringToJson($.Cause)) -> Send to DLQ -> Fail)
         false -> Any Failure? (Choice over isPresent($.DocGen[i].error))
                    true  -> Send to DLQ -> Fail
                    false -> Succeed

This file gives a shallow embedding of that machine as executable Lean
functions.  External task bodies (the per-language transliterator lambdas and
the catalog builder lambda) are opaque collaborators; they are modelled as a
Behavior record mapping each attempt number to an outcome.  A task failure
carries the raw error name and the value that States.StringToJson would
produce on its Cause text (none when the text is not JSON, in which case the
catch handler itself fails and the whole execution aborts uncaught).

Semantics taken from the AWS CDK / Step Functions defaults used by the code:
  - addRetry with no errors list retries States.ALL, maxAttempts 3, backoff 2;
  - addCatch with no props uses resultPath $, so the error output REPLACES the
    whole document flowing into the catch handler;
  - a state-machine level timeout (Duration.hours(1)) fails the execution
    directly, without executing any further state of the definition.
-/

namespace ConstructHub

/-- Structured failure cause, the shape produced by parsing the raw Cause
text of a failed task, as the spec describes it: kind and message. -/
structure TaskError where
  kind : String
  message : String
deriving DecidableEq, Repr

/-- Outcome of one attempt of an external task.  The err constructor carries
the error name (used for retry matching) and the result of parsing the raw
Cause text with States.StringToJson: some structured cause when the text is
JSON, none otherwise. -/
inductive TaskOutcome (σ : Type) where
  | ok : σ → TaskOutcome σ
  | err : String → Option TaskError → TaskOutcome σ
deriving DecidableEq, Repr

/-- The task contract of the spec: the textual cause of a failure can be
parsed into a structured cause, i.e. the outcome is never an error whose
Cause text fails States.StringToJson. -/
def TaskOutcome.parses {σ : Type} (o : TaskOutcome σ) : Prop :=
  ∀ name, o ≠ .err name none

/-- Retry policy of a task state, mirroring the CDK RetryProps used by the
code (errors list, interval, backoff rate, maximum number of retry
attempts). -/
structure RetryPolicy where
  errors : List String
  intervalSeconds : Nat
  backoffRate : Nat
  maxAttempts : Nat
deriving DecidableEq, Repr

/-- Whether an error name is matched by the retry policy.  States.ALL is the
Step Functions wildcard matching every error. -/
def RetryPolicy.retriable (p : RetryPolicy) (name : String) : Bool :=
  p.errors.any (fun e => e == "States.ALL" || e == name)

/-- Retry policy of each DocGen branch:
addRetry({ interval: Duration.seconds(30) }) at index.ts:120, with the CDK
defaults errors = [States.ALL], maxAttempts = 3, backoffRate = 2. -/
def branchRetryPolicy : RetryPolicy :=
  { errors := ["States.ALL"], intervalSeconds := 30, backoffRate := 2, maxAttempts := 3 }

/-- Retry policy of the Add to catalog.json task:
addRetry({ errors: [Lambda.TooManyRequestsException], interval: 30s,
maxAttempts: 5 }) at index.ts:81, with the CDK default backoffRate = 2. -/
def catalogRetryPolicy : RetryPolicy :=
  { errors := ["Lambda.TooManyRequestsException"], intervalSeconds := 30, backoffRate := 2, maxAttempts := 5 }

/-- One invocation of a task with retriesLeft retry attempts remaining.
attempt is the index of the current attempt.  A failed attempt is retried
when the policy matches its error name and retries remain; otherwise the
error is surfaced to the caller. -/
def invokeFrom {σ : Type} (p : RetryPolicy) (task : Nat → TaskOutcome σ) :
    (attempt : Nat) → (retriesLeft : Nat) → TaskOutcome σ
  | attempt, 0 =>
    match task attempt with
    | .ok v => .ok v
    | .err n c => .err n c
  | attempt, r + 1 =>
    match task attempt with
    | .ok v => .ok v
    | .err n c => if p.retriable n then invokeFrom p task (attempt + 1) r else .err n c

/-- The Task Invoker: invoke a task under a retry policy, starting at attempt
0 with the maximum number of retry attempts of the policy available. -/
def invoke {σ : Type} (p : RetryPolicy) (task : Nat → TaskOutcome σ) : TaskOutcome σ :=
  invokeFrom p task 0 p.maxAttempts

/-- SUPPORTED_LANGUAGES at index.ts:18:
[DocumentationLanguage.PYTHON, DocumentationLanguage.TYPESCRIPT]. -/
def SUPPORTED_LANGUAGES : List String := ["python", "typescript"]

/-- Payload returned by the catalog builder lambda, of which the
resultSelector at index.ts:75 keeps ETag and VersionId. -/
structure CatalogPayload where
  eTag : String
  versionId : String
deriving DecidableEq, Repr

/-- The opaque external collaborators of one execution: for each language the
per-attempt outcomes of its transliterator task, and the per-attempt outcomes
of the catalog builder task. -/
structure Behavior (σ : Type) where
  branchTasks : String → Nat → TaskOutcome σ
  catalogTask : Nat → TaskOutcome CatalogPayload

/-- Task-contract well-formedness of a behavior: every failure text parses
into a structured cause (spec section 6 task capability contract). -/
def Behavior.wellFormed {σ : Type} (b : Behavior σ) : Prop :=
  (∀ l n, (b.branchTasks l n).parses) ∧ (∀ n, (b.catalogTask n).parses)

/-- Output of one DocGen branch, one element of the $.DocGen array.
On success the resultSelector at index.ts:114 produces
  \x7b language, success: Payload \x7d
and on a caught error the Pass at index.ts:122 produces
  \x7b error: StringToJson(Cause), language \x7d.
Both optional fields default to none so each constructor site sets exactly
the fields the corresponding state writes. -/
structure BranchOut (σ : Type) where
  language : String
  success : Option σ := none
  error : Option TaskError := none
deriving DecidableEq, Repr

/-- Result of running one branch: either a BranchOut document, or an uncaught
abort (the catch handler failed because the Cause text was not JSON). -/
inductive BranchRun (σ : Type) where
  | done : BranchOut σ → BranchRun σ
  | aborted : String → BranchRun σ
deriving DecidableEq, Repr

/-- The Task Invoker call of one DocGen branch under the branch retry
policy. -/
def branchInvoke {σ : Type} (b : Behavior σ) (language : String) : TaskOutcome σ :=
  invoke branchRetryPolicy (b.branchTasks language)

/-- Run one DocGen branch: invoke the transliterator task with retries; a
surfaced failure is caught and turned into an error-tagged BranchOut by the
Failed language Pass, unless its Cause text does not parse, in which case the
Pass itself fails and the branch aborts uncaught. -/
def runBranch {σ : Type} (b : Behavior σ) (language : String) : BranchRun σ :=
  match branchInvoke b language with
  | .ok payload => .done { language := language, success := some payload }
  | .err _ (some cause) => .done { language := language, error := some cause }
  | .err name none => .aborted name

/-- Collect the outputs of the branches over a list of languages, in declared
order.  Any aborted branch aborts the whole Parallel state (it has no catch),
failing the execution. -/
def collectBranches {σ : Type} (b : Behavior σ) : List String → Except String (List (BranchOut σ))
  | [] => .ok []
  | l :: ls =>
    match runBranch b l with
    | .done r => (collectBranches b ls).map (fun rs => r :: rs)
    | .aborted name => .error name

/-- The DocGen Parallel state over SUPPORTED_LANGUAGES (index.ts:109). -/
def runFanOut {σ : Type} (b : Behavior σ) : Except String (List (BranchOut σ)) :=
  collectBranches b SUPPORTED_LANGUAGES

/-- Ambient execution metadata, the fields of the Step Functions context
object path given by inputPath $$.Execution. -/
structure ExecInfo where
  id : String
  name : String
  roleArn : String
  startTime : String
deriving DecidableEq, Repr

/-- The record built by the Track Execution Infos Pass (index.ts:99): its
parameters block copies exactly Id, Name, RoleArn and StartTime from the
execution metadata.  Modelled as a keyed record so the set of attached fields
is itself observable. -/
def trackExecutionInfos (meta : ExecInfo) : List (String × String) :=
  [("Id", meta.id), ("Name", meta.name), ("RoleArn", meta.roleArn), ("StartTime", meta.startTime)]

/-- The triggering work item.  Its own fields are opaque to the machine; all
stage results are written under distinct reserved top-level keys
($TaskExecution, DocGen, catalogBuilderOutput, error). -/
structure WorkItem where
  fields : List (String × String)
deriving DecidableEq, Repr

/-- The value stored at $.catalogBuilderOutput by the resultSelector of Add
to catalog.json. -/
structure CatalogOut where
  eTag : String
  versionId : String
deriving DecidableEq, Repr

/-- The JSON document flowing through the state machine: the work item plus
the optional results appended by each stage under its own key. -/
structure Document (σ : Type) where
  workItem : WorkItem
  taskExecution : Option (List (String × String)) := none
  docGen : Option (List (BranchOut σ)) := none
  catalogBuilderOutput : Option CatalogOut := none
deriving DecidableEq, Repr

/-- A message delivered to the dead letter queue by the Send to Dead Letter
Queue task (messageBody $, index.ts:64).  On the Any Failure? path the body
is the full current document.  On the catalog-failure path the catch of Add
to catalog.json uses the default resultPath $, so the body is only the error
output of the failed task (name plus structured cause) and carries no work
item fields. -/
inductive DlqMessage (σ : Type) where
  | fullDocument : Document σ → DlqMessage σ
  | catalogFailure : String → TaskError → DlqMessage σ
deriving DecidableEq, Repr

/-- The original work item contained in a DLQ message, when any. -/
def DlqMessage.originalInput? {σ : Type} : DlqMessage σ → Option WorkItem
  | .fullDocument d => some d.workItem
  | .catalogFailure _ _ => none

/-- The states of the machine definition relevant to the properties below,
in the naming of index.ts: init = Track Execution Infos, fanOut = DocGen,
aggregate = Any Success?, catalogUpdate = Add to catalog.json, catalogCatch =
Failed to add to catalog.json, dlqCheck = Any Failure?, sendToDlq = Send to
Dead Letter Queue. -/
inductive Stage where
  | init
  | fanOut
  | aggregate
  | catalogUpdate
  | catalogCatch
  | dlqCheck
  | sendToDlq
deriving DecidableEq, Repr

/-- Terminal outcome of an execution. -/
inductive Terminal where
  | succeeded
  | failed
deriving DecidableEq, Repr

/-- Observable result of one execution: terminal state, the sequence of DLQ
messages written, the number of times the Add to catalog.json task state was
entered, the sequence of states entered, and the final output on success. -/
structure RunResult (σ : Type) where
  terminal : Terminal
  dlq : List (DlqMessage σ)
  catalogInvocations : Nat
  visited : List Stage
  output : Option (Document σ)
deriving DecidableEq, Repr

/-- Whether $.DocGen[i].error is present (Condition.isPresent on that path:
the index resolves and the element has the error field). -/
def errPresent {σ : Type} (results : List (BranchOut σ)) (i : Nat) : Bool :=
  match results[i]? with
  | some r => r.error.isSome
  | none => false

/-- The Any Success? condition (index.ts:132): an OR over the branch indices
of isNotPresent($.DocGen[i].error). -/
def anySuccessCond {σ : Type} (results : List (BranchOut σ)) : Bool :=
  (List.range SUPPORTED_LANGUAGES.length).any (fun i => ! errPresent results i)

/-- The Any Failure? condition (index.ts:90): an OR over the branch indices
of isPresent($.DocGen[i].error). -/
def anyFailureCond {σ : Type} (results : List (BranchOut σ)) : Bool :=
  (List.range SUPPORTED_LANGUAGES.length).any (fun i => errPresent results i)

/-- The Any Failure? choice and its two continuations (index.ts:88): when
some branch errored, send the whole current document to the DLQ and fail;
otherwise succeed with the current document as output.  seen is the list of
states already entered on the way here. -/
def sendToDlqIfNeeded {σ : Type} (doc : Document σ) (catalogInv : Nat) (seen : List Stage) :
    RunResult σ :=
  if anyFailureCond (doc.docGen.getD []) then
    { terminal := .failed, dlq := [DlqMessage.fullDocument doc], catalogInvocations := catalogInv,
      visited := seen ++ [Stage.dlqCheck, Stage.sendToDlq], output := none }
  else
    { terminal := .succeeded, dlq := [], catalogInvocations := catalogInv,
      visited := seen ++ [Stage.dlqCheck], output := some doc }

/-- What the catalog-update stage leaves at $.catalogBuilderOutput, given the
branch results: present only when Any Success? held and the catalog task
invocation succeeded. -/
def catalogResult {σ : Type} (b : Behavior σ) (results : List (BranchOut σ)) : Option CatalogOut :=
  if anySuccessCond results then
    match invoke catalogRetryPolicy b.catalogTask with
    | .ok payload => some { eTag := payload.eTag, versionId := payload.versionId }
    | .err _ _ => none
  else none

/-- One run of the state machine definition (index.ts:99-138) for behavior b,
execution metadata meta and input work item w. -/
def runDefinition {σ : Type} (b : Behavior σ) (meta : ExecInfo) (w : WorkItem) : RunResult σ :=
  let doc0 : Document σ := { workItem := w, taskExecution := some (trackExecutionInfos meta) }
  match runFanOut b with
  | .error _ =>
    { terminal := .failed, dlq := [], catalogInvocations := 0,
      visited := [Stage.init, Stage.fanOut], output := none }
  | .ok results =>
    let doc1 := { doc0 with docGen := some results }
    if anySuccessCond results then
      match invoke catalogRetryPolicy b.catalogTask with
      | .ok payload =>
        sendToDlqIfNeeded
          { doc1 with catalogBuilderOutput := some { eTag := payload.eTag, versionId := payload.versionId } }
          1 [Stage.init, Stage.fanOut, Stage.aggregate, Stage.catalogUpdate]
      | .err name (some cause) =>
        { terminal := .failed, dlq := [DlqMessage.catalogFailure name cause],
          catalogInvocations := 1,
          visited := [Stage.init, Stage.fanOut, Stage.aggregate, Stage.catalogUpdate,
            Stage.catalogCatch, Stage.sendToDlq],
          output := none }
      | .err _ none =>
        { terminal := .failed, dlq := [], catalogInvocations := 1,
          visited := [Stage.init, Stage.fanOut, Stage.aggregate, Stage.catalogUpdate,
            Stage.catalogCatch],
          output := none }
    else
      sendToDlqIfNeeded doc1 0 [Stage.init, Stage.fanOut, Stage.aggregate]

/-- One execution of the state machine (index.ts:140): the machine has a one
hour execution timeout; an execution exceeding it is failed by the engine
directly, entering no further state of the definition, writing nothing, and
producing no output.  An execution within the budget runs the definition. -/
def runExecution {σ : Type} (b : Behavior σ) (meta : ExecInfo) (w : WorkItem)
    (timedOut : Bool) : RunResult σ :=
  if timedOut then
    { terminal := .failed, dlq := [], catalogInvocations := 0, visited := [], output := none }
  else
    runDefinition b meta w

/-- Modelled from the spec: the DLQ message shape of spec section 3, used by
the redrive controller (originalInput, structured cause, capture
timestamp). -/
structure SpecDlqEntry where
  originalInput : WorkItem
  cause : TaskError
  capturedAt : String
deriving DecidableEq, Repr

/-- Counts returned by the redrive operation. -/
structure RedriveCounts where
  attempted : Nat
  succeeded : Nat
  failed : Nat
deriving DecidableEq, Repr

/-- Observable outcome of one redrive run: the returned counts, the messages
still in the DLQ afterwards, and the inputs passed to the workflow engine
start calls, in order. -/
structure RedriveOutcome where
  counts : RedriveCounts
  remaining : List SpecDlqEntry
  startCalls : List WorkItem
deriving DecidableEq, Repr

/-- Modelled from the spec: the body of the RedriveStateMachine handler is
not under src/ (index.ts:152 only wires the construct), so this follows spec
section 4.4: drain the DLQ message by message; for each message call start
with its originalInput; remove the message on a successful start
acknowledgment, leave it in place otherwise; return attempted, succeeded and
failed counts.  startOk tells whether the start call for a message is
acknowledged. -/
def redrive (startOk : SpecDlqEntry → Bool) : List SpecDlqEntry → RedriveOutcome
  | [] => { counts := { attempted := 0, succeeded := 0, failed := 0 }, remaining := [], startCalls := [] }
  | m :: ms =>
    let rest := redrive startOk ms
    if startOk m then
      { counts := { attempted := rest.counts.attempted + 1,
                    succeeded := rest.counts.succeeded + 1,
                    failed := rest.counts.failed },
        remaining := rest.remaining,
        startCalls := m.originalInput :: rest.startCalls }
    else
      { counts := { attempted := rest.counts.attempted + 1,
                    succeeded := rest.counts.succeeded,
                    failed := rest.counts.failed + 1 },
        remaining := m :: rest.remaining,
        startCalls := m.originalInput :: rest.startCalls }

/-- Concrete execution metadata used by witnesses. -/
def meta0 : ExecInfo :=
  { id := "id-1", name := "exec-1", roleArn := "role-1", startTime := "t0" }

/-- Concrete work item used by witnesses. -/
def w0 : WorkItem := { fields := [("name", "foo"), ("version", "1.0.0")] }

/-- Structured cause used by failing witness behaviors. -/
def errB : TaskError := { kind := "TaskFailed", message := "boom" }

/-- Behavior with both branches and the catalog task succeeding. -/
def bAllOk : Behavior Nat :=
  { branchTasks := fun _ _ => .ok 7,
    catalogTask := fun _ => .ok { eTag := "etag-1", versionId := "v-1" } }

/-- Behavior where the typescript branch fails permanently with a parseable
cause and everything else succeeds. -/
def bOneFail : Behavior Nat :=
  { branchTasks := fun l _ =>
      if l == "typescript" then .err "States.TaskFailed" (some errB) else .ok 7,
    catalogTask := fun _ => .ok { eTag := "etag-1", versionId := "v-1" } }

/-- Behavior where both branches fail permanently with a parseable cause. -/
def bBothFail : Behavior Nat :=
  { branchTasks := fun _ _ => .err "States.TaskFailed" (some errB),
    catalogTask := fun _ => .ok { eTag := "etag-1", versionId := "v-1" } }

/-- Behavior where both branches succeed and the catalog task fails with a
non-retryable error carrying a parseable cause. -/
def bCatalogFails : Behavior Nat :=
  { branchTasks := fun _ _ => .ok 7,
    catalogTask := fun _ => .err "Boom" (some { kind := "Boom", message := "cause" }) }

/-- Behavior where both branches succeed and the catalog task is throttled on
its first four attempts and succeeds on the fifth. -/
def bThrottle4 : Behavior Nat :=
  { branchTasks := fun _ _ => .ok 7,
    catalogTask := fun n =>
      if n < 4 then
        .err "Lambda.TooManyRequestsException"
          (some { kind := "Lambda.TooManyRequestsException", message := "throttled" })
      else .ok { eTag := "etag-1", versionId := "v-1" } }

/-- The branch results produced by bAllOk. -/
def resAllOk : List (BranchOut Nat) :=
  [{ language := "python", success := some 7 }, { language := "typescript", success := some 7 }]

/-- The branch results produced by bOneFail. -/
def resOneFail : List (BranchOut Nat) :=
  [{ language := "python", success := some 7 }, { language := "typescript", error := some errB }]

/-- The branch results produced by bBothFail. -/
def resBothFail : List (BranchOut Nat) :=
  [{ language := "python", error := some errB }, { language := "typescript", error := some errB }]

/-- The final output document of a run of bAllOk. -/
def docAllOk : Document Nat :=
  { workItem := w0, taskExecution := some (trackExecutionInfos meta0),
    docGen := some resAllOk, catalogBuilderOutput := some { eTag := "etag-1", versionId := "v-1" } }

/-- Concrete DLQ entries used by the redrive witness. -/
def m0 : SpecDlqEntry := { originalInput := w0, cause := errB, capturedAt := "t1" }

/-- Second concrete DLQ entry, whose start call will fail. -/
def m1 : SpecDlqEntry :=
  { originalInput := { fields := [("name", "bar")] }, cause := errB, capturedAt := "t2" }

/-- Third concrete DLQ entry. -/
def m2 : SpecDlqEntry :=
  { originalInput := { fields := [("name", "baz")] }, cause := errB, capturedAt := "t3" }

/-- A three message DLQ for the redrive witness. -/
def q3 : List SpecDlqEntry := [m0, m1, m2]

/-- Start acknowledgment behavior for the redrive witness: the start call for
m1 fails, the other two succeed. -/
def ok3 : SpecDlqEntry → Bool := fun m => ! (m.capturedAt == "t2")

end ConstructHub

namespace ConstructHub

theorem invokeFrom_err_surfaces {σ : Type} (p : RetryPolicy) (task : Nat → TaskOutcome σ) :
    ∀ r a name c, invokeFrom p task a r = .err name c → ∃ k, task k = .err name c := by
  intro r
  induction r with
  | zero =>
    intro a name c h
    cases ht : task a with
    | ok v => simp [invokeFrom, ht] at h
    | err n cc =>
      simp [invokeFrom, ht] at h
      exact ⟨a, by rw [ht, h.1, h.2]⟩
  | succ r ih =>
    intro a name c h
    cases ht : task a with
    | ok v => simp [invokeFrom, ht] at h
    | err n cc =>
      cases hr : p.retriable n with
      | true =>
        exact ih (a + 1) name c (by simpa [invokeFrom, ht, hr] using h)
      | false =>
        simp [invokeFrom, ht, hr] at h
        exact ⟨a, by rw [ht, h.1, h.2]⟩

theorem invoke_err_surfaces {σ : Type} (p : RetryPolicy) (task : Nat → TaskOutcome σ)
    (name : String) (c : Option TaskError) (h : invoke p task = .err name c) :
    ∃ k, task k = .err name c :=
  invokeFrom_err_surfaces p task p.maxAttempts 0 name c h

theorem runBranch_cases {σ : Type} (b : Behavior σ) (l : String) :
    (∃ p, branchInvoke b l = .ok p ∧
      runBranch b l = .done { language := l, success := some p }) ∨
    (∃ name cause, branchInvoke b l = .err name (some cause) ∧
      runBranch b l = .done { language := l, error := some cause }) ∨
    (∃ name, branchInvoke b l = .err name none ∧ runBranch b l = .aborted name) := by
  cases h : branchInvoke b l with
  | ok p => exact Or.inl ⟨p, rfl, by simp [runBranch, h]⟩
  | err name c =>
    cases c with
    | some cause => exact Or.inr (Or.inl ⟨name, cause, rfl, by simp [runBranch, h]⟩)
    | none => exact Or.inr (Or.inr ⟨name, rfl, by simp [runBranch, h]⟩)

theorem runBranch_done_form {σ : Type} (b : Behavior σ) (l : String) (r : BranchOut σ)
    (h : runBranch b l = .done r) :
    (∃ p, r = { language := l, success := some p }) ∨
    (∃ c, r = { language := l, error := some c }) := by
  rcases runBranch_cases b l with ⟨p, _, hd⟩ | ⟨name, cause, _, hd⟩ | ⟨name, _, hd⟩ <;>
    rw [hd] at h
  · exact Or.inl ⟨p, by injection h with h2; rw [h2]⟩
  · exact Or.inr ⟨cause, by injection h with h2; rw [h2]⟩
  · exact absurd h (by simp)

theorem runFanOut_ok_shape {σ : Type} (b : Behavior σ) (results : List (BranchOut σ))
    (h : runFanOut b = .ok results) :
    ∃ r0 r1, runBranch b "python" = .done r0 ∧ runBranch b "typescript" = .done r1 ∧
      results = [r0, r1] := by
  cases h0 : runBranch b "python" with
  | aborted name => simp [runFanOut, SUPPORTED_LANGUAGES, collectBranches, h0, Except.map] at h
  | done r0 =>
    cases h1 : runBranch b "typescript" with
    | aborted name =>
      simp [runFanOut, SUPPORTED_LANGUAGES, collectBranches, h0, h1, Except.map] at h
    | done r1 =>
      refine ⟨r0, r1, rfl, rfl, ?_⟩
      simp [runFanOut, SUPPORTED_LANGUAGES, collectBranches, h0, h1, Except.map] at h
      exact h.symm

theorem anySuccessCond_pair {σ : Type} (r0 r1 : BranchOut σ) :
    anySuccessCond [r0, r1] = (! r0.error.isSome || ! r1.error.isSome) := by
  have hr : List.range SUPPORTED_LANGUAGES.length = [0, 1] := rfl
  simp [anySuccessCond, hr, errPresent]

theorem anyFailureCond_pair {σ : Type} (r0 r1 : BranchOut σ) :
    anyFailureCond [r0, r1] = (r0.error.isSome || r1.error.isSome) := by
  have hr : List.range SUPPORTED_LANGUAGES.length = [0, 1] := rfl
  simp [anyFailureCond, hr, errPresent]

theorem fanOut_conds {σ : Type} (b : Behavior σ) (results : List (BranchOut σ))
    (h : runFanOut b = .ok results) :
    anySuccessCond results = results.any (fun r => r.success.isSome) ∧
    anyFailureCond results = results.any (fun r => r.error.isSome) := by
  obtain ⟨r0, r1, h0, h1, hres⟩ := runFanOut_ok_shape b results h
  subst hres
  rcases runBranch_done_form b "python" r0 h0 with ⟨p, hp⟩ | ⟨c, hp⟩ <;>
    rcases runBranch_done_form b "typescript" r1 h1 with ⟨q, hq⟩ | ⟨d, hq⟩ <;>
      subst hp <;> subst hq <;>
        simp [anySuccessCond_pair, anyFailureCond_pair]

theorem runFanOut_no_abort {σ : Type} (b : Behavior σ)
    (hb : ∀ l n, (b.branchTasks l n).parses) :
    ∃ results, runFanOut b = .ok results := by
  have hp : ∀ l, ∃ r, runBranch b l = .done r := by
    intro l
    rcases runBranch_cases b l with ⟨p, _, hd⟩ | ⟨name, cause, _, hd⟩ | ⟨name, hi, hd⟩
    · exact ⟨_, hd⟩
    · exact ⟨_, hd⟩
    · exfalso
      obtain ⟨k, hk⟩ := invoke_err_surfaces _ _ _ _ hi
      exact hb l k name hk
  obtain ⟨r0, h0⟩ := hp "python"
  obtain ⟨r1, h1⟩ := hp "typescript"
  exact ⟨[r0, r1], by simp [runFanOut, SUPPORTED_LANGUAGES, collectBranches, h0, h1, Except.map]⟩

/-- C10: every element of the branch results array carries the language field
and exactly one of success or error, so the engine conditions over presence
of the error field coincide with the success-tag and error-tag tests of the
spec. -/
theorem c10_branch_result_shape {σ : Type} (b : Behavior σ) (results : List (BranchOut σ))
    (h : runFanOut b = .ok results) :
    results.map (fun r => r.language) = SUPPORTED_LANGUAGES ∧
    (∀ r ∈ results, (r.success.isSome ↔ r.error = none) ∧ (r.success = none ↔ r.error.isSome)) ∧
    anySuccessCond results = results.any (fun r => r.success.isSome) ∧
    anyFailureCond results = results.any (fun r => r.error.isSome) := by
  have hc := fanOut_conds b results h
  obtain ⟨r0, r1, h0, h1, hres⟩ := runFanOut_ok_shape b results h
  subst hres
  refine ⟨?_, ?_, hc.1, hc.2⟩ <;>
    rcases runBranch_done_form b "python" r0 h0 with ⟨p, hp⟩ | ⟨c, hp⟩ <;>
      rcases runBranch_done_form b "typescript" r1 h1 with ⟨q, hq⟩ | ⟨d, hq⟩ <;>
        subst hp <;> subst hq <;> simp [SUPPORTED_LANGUAGES]

theorem c10_witness :
    resOneFail.map (fun r => r.language) = SUPPORTED_LANGUAGES ∧
    anySuccessCond resOneFail = resOneFail.any (fun r => r.success.isSome) :=
  ⟨(c10_branch_result_shape bOneFail resOneFail rfl).1,
   (c10_branch_result_shape bOneFail resOneFail rfl).2.2.1⟩

end ConstructHub

namespace ConstructHub

/-- C1: the Any Success? choice invokes the Add to catalog.json task exactly
once when at least one branch result carries a success tag, and skips
directly to the Any Failure? check, never invoking it, when none does. -/
theorem c1_catalog_invocation {σ : Type} (b : Behavior σ) (meta : ExecInfo) (w : WorkItem)
    (results : List (BranchOut σ)) (hf : runFanOut b = .ok results) :
    ((∃ r ∈ results, r.success.isSome) → (runDefinition b meta w).catalogInvocations = 1) ∧
    ((∀ r ∈ results, r.success = none) →
      (runDefinition b meta w).catalogInvocations = 0 ∧
      Stage.catalogUpdate ∉ (runDefinition b meta w).visited ∧
      Stage.dlqCheck ∈ (runDefinition b meta w).visited) := by
  constructor
  · intro hex
    have hAS : anySuccessCond results = true := by
      rw [(fanOut_conds b results hf).1]
      rw [List.any_eq_true]
      obtain ⟨r, hr, hs⟩ := hex
      exact ⟨r, hr, hs⟩
    cases hc : invoke catalogRetryPolicy b.catalogTask with
    | ok p =>
      simp [runDefinition, hf, hAS, hc, sendToDlqIfNeeded]
      split <;> rfl
    | err name c =>
      cases c <;> simp [runDefinition, hf, hAS, hc]
  · intro hall
    have hAS : anySuccessCond results = false := by
      rw [(fanOut_conds b results hf).1]
      rw [List.any_eq_false]
      intro r hr
      simp [hall r hr]
    simp [runDefinition, hf, hAS, sendToDlqIfNeeded]
    split <;> simp

theorem c1_witness :
    (runDefinition bAllOk meta0 w0).catalogInvocations = 1 ∧
    (runDefinition bBothFail meta0 w0).catalogInvocations = 0 :=
  ⟨(c1_catalog_invocation bAllOk meta0 w0 resAllOk rfl).1
      ⟨{ language := "python", success := some 7 }, by decide, by decide⟩,
   ((c1_catalog_invocation bBothFail meta0 w0 resBothFail rfl).2 (by decide)).1⟩

/-- C3: when at least one branch succeeded and the catalog invocation fails
with retries exhausted and a parseable cause, the structured cause is
attached, one DLQ message is written, and only then does the execution
terminate Failed, never entering the Any Failure? (DlqCheck) state. -/
theorem c3_catalog_failure_path {σ : Type} (b : Behavior σ) (meta : ExecInfo) (w : WorkItem)
    (results : List (BranchOut σ)) (name : String) (cause : TaskError)
    (hf : runFanOut b = .ok results)
    (hs : ∃ r ∈ results, r.success.isSome)
    (hc : invoke catalogRetryPolicy b.catalogTask = .err name (some cause)) :
    runDefinition b meta w =
      { terminal := .failed, dlq := [DlqMessage.catalogFailure name cause],
        catalogInvocations := 1,
        visited := [Stage.init, Stage.fanOut, Stage.aggregate, Stage.catalogUpdate,
          Stage.catalogCatch, Stage.sendToDlq],
        output := none } ∧
    Stage.dlqCheck ∉ (runDefinition b meta w).visited := by
  have hAS : anySuccessCond results = true := by
    rw [(fanOut_conds b results hf).1]
    rw [List.any_eq_true]
    obtain ⟨r, hr, hsr⟩ := hs
    exact ⟨r, hr, hsr⟩
  have hrun : runDefinition b meta w =
      { terminal := .failed, dlq := [DlqMessage.catalogFailure name cause],
        catalogInvocations := 1,
        visited := [Stage.init, Stage.fanOut, Stage.aggregate, Stage.catalogUpdate,
          Stage.catalogCatch, Stage.sendToDlq],
        output := none } := by
    simp [runDefinition, hf, hAS, hc]
  exact ⟨hrun, by rw [hrun]; simp⟩

theorem c3_witness :
    runDefinition bCatalogFails meta0 w0 =
      { terminal := .failed,
        dlq := [DlqMessage.catalogFailure "Boom" { kind := "Boom", message := "cause" }],
        catalogInvocations := 1,
        visited := [Stage.init, Stage.fanOut, Stage.aggregate, Stage.catalogUpdate,
          Stage.catalogCatch, Stage.sendToDlq],
        output := none } ∧
    Stage.dlqCheck ∉ (runDefinition bCatalogFails meta0 w0).visited :=
  c3_catalog_failure_path bCatalogFails meta0 w0 resAllOk "Boom"
    { kind := "Boom", message := "cause" } rfl
    ⟨{ language := "python", success := some 7 }, by decide, by decide⟩ rfl

/-- C2: at the Any Failure? (DlqCheck) state, if some branch result carries
an error tag the whole current document (work item, execution infos, all
branch results and the catalog update result when present) is sent to the
DLQ and the execution fails; otherwise it succeeds and writes nothing. -/
theorem c2_dlqcheck_routes {σ : Type} (b : Behavior σ) (meta : ExecInfo) (w : WorkItem)
    (results : List (BranchOut σ))
    (hf : runFanOut b = .ok results)
    (hv : Stage.dlqCheck ∈ (runDefinition b meta w).visited) :
    ((results.any fun r => r.error.isSome) = true →
      (runDefinition b meta w).terminal = .failed ∧
      (runDefinition b meta w).dlq =
        [DlqMessage.fullDocument
          { workItem := w, taskExecution := some (trackExecutionInfos meta),
            docGen := some results, catalogBuilderOutput := catalogResult b results }]) ∧
    ((results.any fun r => r.error.isSome) = false →
      (runDefinition b meta w).terminal = .succeeded ∧ (runDefinition b meta w).dlq = []) := by
  have hcond := (fanOut_conds b results hf).2
  cases hAS : anySuccessCond results with
  | true =>
    cases hc : invoke catalogRetryPolicy b.catalogTask with
    | ok p =>
      have hcr : catalogResult b results = some { eTag := p.eTag, versionId := p.versionId } := by
        simp [catalogResult, hAS, hc]
      constructor
      · intro hAF
        have hAF2 : anyFailureCond results = true := by rw [hcond, hAF]
        simp [runDefinition, hf, hAS, hc, sendToDlqIfNeeded, hAF2, hcr]
      · intro hAF
        have hAF2 : anyFailureCond results = false := by rw [hcond, hAF]
        simp [runDefinition, hf, hAS, hc, sendToDlqIfNeeded, hAF2]
    | err n c =>
      exfalso
      cases c <;> simp [runDefinition, hf, hAS, hc] at hv
  | false =>
    have hcr : catalogResult b results = none := by simp [catalogResult, hAS]
    constructor
    · intro hAF
      have hAF2 : anyFailureCond results = true := by rw [hcond, hAF]
      simp [runDefinition, hf, hAS, sendToDlqIfNeeded, hAF2, hcr]
    · intro hAF
      have hAF2 : anyFailureCond results = false := by rw [hcond, hAF]
      simp [runDefinition, hf, hAS, sendToDlqIfNeeded, hAF2]

theorem c2_witness :
    (runDefinition bOneFail meta0 w0).terminal = .failed ∧
    (runDefinition bOneFail meta0 w0).dlq =
      [DlqMessage.fullDocument
        { workItem := w0, taskExecution := some (trackExecutionInfos meta0),
          docGen := some resOneFail, catalogBuilderOutput := catalogResult bOneFail resOneFail }] :=
  (c2_dlqcheck_routes bOneFail meta0 w0 resOneFail rfl (by decide)).1 (by decide)

/-- C7 evidence: on the catalog-failure path the single DLQ message of the
failed execution carries no original work item at all (the catch replaced
the document with the error output), while on the branch-error path the DLQ
message does carry the work item unchanged. -/
theorem c7_catalog_failure_loses_work_item :
    (runDefinition bCatalogFails meta0 w0).terminal = .failed ∧
    (runDefinition bCatalogFails meta0 w0).dlq =
      [DlqMessage.catalogFailure "Boom" { kind := "Boom", message := "cause" }] ∧
    (runDefinition bCatalogFails meta0 w0).dlq.map DlqMessage.originalInput? = [none] ∧
    (runDefinition bOneFail meta0 w0).dlq.map DlqMessage.originalInput? = [some w0] :=
  ⟨rfl, rfl, rfl, rfl⟩

end ConstructHub

namespace ConstructHub

/-- C4 counterexample: a timed-out execution is failed by the engine without
entering any state, so it reaches the Failed terminal state with no
DeadLetterMessage written and without being routed through the DLQ path,
refuting both the stated iff and the claim that a timeout is routed through
the Failure Router. -/
theorem c4_timeout_counterexample :
    (runExecution bAllOk meta0 w0 true).terminal = .failed ∧
    (runExecution bAllOk meta0 w0 true).dlq = [] ∧
    (runExecution bAllOk meta0 w0 true).visited = [] :=
  ⟨rfl, rfl, rfl⟩

/-- C4 amended: for executions that do not time out and whose failure texts
parse, a DLQ message exists iff the execution failed; a timed-out execution
is forced Failed directly, entering no state and writing no DLQ message. -/
theorem c4_dlq_iff_failed {σ : Type} (b : Behavior σ) (meta : ExecInfo) (w : WorkItem)
    (hwf : b.wellFormed) :
    ((runExecution b meta w false).dlq ≠ [] ↔
      (runExecution b meta w false).terminal = .failed) ∧
    runExecution b meta w true =
      { terminal := .failed, dlq := [], catalogInvocations := 0, visited := [],
        output := none } := by
  refine ⟨?_, rfl⟩
  have hxe : runExecution b meta w false = runDefinition b meta w := rfl
  rw [hxe]
  obtain ⟨results, hf⟩ := runFanOut_no_abort b hwf.1
  cases hAS : anySuccessCond results with
  | true =>
    cases hc : invoke catalogRetryPolicy b.catalogTask with
    | ok p =>
      simp [runDefinition, hf, hAS, hc, sendToDlqIfNeeded]
      split <;> simp
    | err n c =>
      cases c with
      | some cause => simp [runDefinition, hf, hAS, hc]
      | none =>
        exfalso
        obtain ⟨k, hk⟩ := invoke_err_surfaces _ _ _ _ hc
        exact hwf.2 k n hk
  | false =>
    simp [runDefinition, hf, hAS, sendToDlqIfNeeded]
    split <;> simp

theorem c4_witness :
    (runExecution bAllOk meta0 w0 false).dlq ≠ [] ↔
      (runExecution bAllOk meta0 w0 false).terminal = .failed :=
  (c4_dlq_iff_failed bAllOk meta0 w0
    ⟨fun _ _ name h => by simp [bAllOk] at h, fun _ name h => by simp [bAllOk] at h⟩).1

/-- C5: under the task contract that failure texts parse, the fan-out stage
always completes with one result per configured language in declared order,
a branch whose invocation surfaces an error is caught into an error-tagged
result carrying the structured cause, and the execution proceeds past the
fan-out stage rather than failing there. -/
theorem c5_fanout_isolation {σ : Type} (b : Behavior σ) (meta : ExecInfo) (w : WorkItem)
    (hb : ∀ l n, (b.branchTasks l n).parses) :
    ∃ results, runFanOut b = .ok results ∧
      results.map (fun r => r.language) = SUPPORTED_LANGUAGES ∧
      (∀ l ∈ SUPPORTED_LANGUAGES, ∀ name cause, branchInvoke b l = .err name (some cause) →
        ({ language := l, error := some cause } : BranchOut σ) ∈ results) ∧
      Stage.aggregate ∈ (runDefinition b meta w).visited := by
  obtain ⟨results, hf⟩ := runFanOut_no_abort b hb
  obtain ⟨r0, r1, h0, h1, hres⟩ := runFanOut_ok_shape b results hf
  refine ⟨results, hf, ?_, ?_, ?_⟩
  · subst hres
    rcases runBranch_done_form b "python" r0 h0 with ⟨p, hp⟩ | ⟨c, hp⟩ <;>
      rcases runBranch_done_form b "typescript" r1 h1 with ⟨q, hq⟩ | ⟨d, hq⟩ <;>
        subst hp <;> subst hq <;> simp [SUPPORTED_LANGUAGES]
  · intro l hl name cause hinv
    subst hres
    have hl2 : l = "python" ∨ l = "typescript" := by
      simpa [SUPPORTED_LANGUAGES] using hl
    rcases hl2 with rfl | rfl
    · have hb2 : runBranch b "python" = .done { language := "python", error := some cause } := by
        simp [runBranch, hinv]
      rw [hb2] at h0
      injection h0 with h2
      rw [← h2]
      simp
    · have hb2 : runBranch b "typescript" =
          .done { language := "typescript", error := some cause } := by
        simp [runBranch, hinv]
      rw [hb2] at h1
      injection h1 with h2
      rw [← h2]
      simp
  · cases hAS : anySuccessCond results with
    | true =>
      cases hc : invoke catalogRetryPolicy b.catalogTask with
      | ok p =>
        simp [runDefinition, hf, hAS, hc, sendToDlqIfNeeded]
        split <;> simp
      | err n c => cases c <;> simp [runDefinition, hf, hAS, hc]
    | false =>
      simp [runDefinition, hf, hAS, sendToDlqIfNeeded]
      split <;> simp

theorem c5_witness :
    ∃ results, runFanOut bOneFail = .ok results ∧
      results.map (fun r => r.language) = SUPPORTED_LANGUAGES ∧
      (∀ l ∈ SUPPORTED_LANGUAGES, ∀ name cause,
        branchInvoke bOneFail l = .err name (some cause) →
          ({ language := l, error := some cause } : BranchOut Nat) ∈ results) ∧
      Stage.aggregate ∈ (runDefinition bOneFail meta0 w0).visited :=
  c5_fanout_isolation bOneFail meta0 w0
    (fun l n name h => by revert h; simp [bOneFail]; split <;> simp)

/-- C6: the two retry policies are exactly those of the code: the branch
policy retries the generic catch-all error set with a 30 second interval and
a maximum of 3 retry attempts, the catalog policy retries only the
Lambda.TooManyRequestsException error with a 30 second interval and a
maximum of 5 retry attempts; any other catalog error is surfaced without
retry, and a catalog task throttled four times then succeeding on its fifth
attempt yields terminal Success with no DLQ entry. -/
theorem c6_retry_policies (name : String) (c : Option TaskError)
    (task : Nat → TaskOutcome CatalogPayload)
    (hn : name ≠ "Lambda.TooManyRequestsException") (h0 : task 0 = .err name c) :
    branchRetryPolicy =
      { errors := ["States.ALL"], intervalSeconds := 30, backoffRate := 2, maxAttempts := 3 } ∧
    catalogRetryPolicy =
      { errors := ["Lambda.TooManyRequestsException"], intervalSeconds := 30, backoffRate := 2,
        maxAttempts := 5 } ∧
    invoke catalogRetryPolicy task = .err name c ∧
    (runDefinition bThrottle4 meta0 w0).terminal = .succeeded ∧
    (runDefinition bThrottle4 meta0 w0).dlq = [] ∧
    (runDefinition bThrottle4 meta0 w0).catalogInvocations = 1 := by
  refine ⟨rfl, rfl, ?_, rfl, rfl, rfl⟩
  have hr : catalogRetryPolicy.retriable name = false := by
    simp [catalogRetryPolicy, RetryPolicy.retriable]
    exact fun h => hn h.symm
  have hm : catalogRetryPolicy.maxAttempts = 5 := rfl
  rw [invoke, hm]
  simp [invokeFrom, h0, hr]

theorem c6_witness :
    invoke catalogRetryPolicy bCatalogFails.catalogTask =
      .err "Boom" (some { kind := "Boom", message := "cause" }) ∧
    (runDefinition bThrottle4 meta0 w0).terminal = .succeeded ∧
    (runDefinition bThrottle4 meta0 w0).dlq = [] :=
  ⟨(c6_retry_policies "Boom" (some { kind := "Boom", message := "cause" })
      bCatalogFails.catalogTask (by decide) rfl).2.2.1,
   (c6_retry_policies "Boom" (some { kind := "Boom", message := "cause" })
      bCatalogFails.catalogTask (by decide) rfl).2.2.2.1,
   (c6_retry_policies "Boom" (some { kind := "Boom", message := "cause" })
      bCatalogFails.catalogTask (by decide) rfl).2.2.2.2.1⟩

/-- C8 counterexample: the record attached by Track Execution Infos carries
exactly the four values Id, Name, RoleArn and StartTime copied from the
execution metadata; it contains no fifth or sixth component, so no current
stage and no elapsed-time budget are attached, contrary to the claim. -/
theorem c8_counterexample :
    (trackExecutionInfos meta0).map Prod.fst = ["Id", "Name", "RoleArn", "StartTime"] ∧
    trackExecutionInfos meta0 =
      [("Id", "id-1"), ("Name", "exec-1"), ("RoleArn", "role-1"), ("StartTime", "t0")] ∧
    (trackExecutionInfos meta0).length = 4 :=
  ⟨rfl, rfl, rfl⟩

/-- C8 amended: the Init state attaches, under the reserved $TaskExecution
field, a record holding exactly the execution id, name, role ARN and start
timestamp, and every execution transitions from Init to the fan-out stage
unconditionally. -/
theorem c8_init_execution_context {σ : Type} (b : Behavior σ) (meta : ExecInfo) (w : WorkItem) :
    (runDefinition b meta w).visited.take 2 = [Stage.init, Stage.fanOut] ∧
    (∀ d, (runDefinition b meta w).output = some d →
      d.taskExecution = some (trackExecutionInfos meta) ∧ d.workItem = w) ∧
    (∀ d, DlqMessage.fullDocument d ∈ (runDefinition b meta w).dlq →
      d.taskExecution = some (trackExecutionInfos meta) ∧ d.workItem = w) ∧
    (trackExecutionInfos meta).map Prod.fst = ["Id", "Name", "RoleArn", "StartTime"] := by
  cases hf : runFanOut b with
  | error name => simp [runDefinition, hf, trackExecutionInfos]
  | ok results =>
    cases hAS : anySuccessCond results with
    | true =>
      cases hc : invoke catalogRetryPolicy b.catalogTask with
      | ok p =>
        simp [runDefinition, hf, hAS, hc, sendToDlqIfNeeded, trackExecutionInfos]
        split <;> simp_all
      | err n c =>
        cases c <;> simp [runDefinition, hf, hAS, hc, trackExecutionInfos]
    | false =>
      simp [runDefinition, hf, hAS, sendToDlqIfNeeded, trackExecutionInfos]
      split <;> simp_all

theorem c8_witness :
    (runDefinition bAllOk meta0 w0).visited.take 2 = [Stage.init, Stage.fanOut] ∧
    (docAllOk.taskExecution = some (trackExecutionInfos meta0) ∧ docAllOk.workItem = w0) :=
  ⟨(c8_init_execution_context bAllOk meta0 w0).1,
   (c8_init_execution_context bAllOk meta0 w0).2.1 docAllOk rfl⟩

theorem redrive_attempted (startOk : SpecDlqEntry → Bool) :
    ∀ q, (redrive startOk q).counts.attempted = q.length := by
  intro q
  induction q with
  | nil => rfl
  | cons m ms ih => cases hs : startOk m <;> simp [redrive, hs, ih]

theorem redrive_succeeded (startOk : SpecDlqEntry → Bool) :
    ∀ q, (redrive startOk q).counts.succeeded = (q.filter (fun m => startOk m)).length := by
  intro q
  induction q with
  | nil => rfl
  | cons m ms ih => cases hs : startOk m <;> simp [redrive, hs, ih]

theorem redrive_failed (startOk : SpecDlqEntry → Bool) :
    ∀ q, (redrive startOk q).counts.failed = (q.filter (fun m => ! startOk m)).length := by
  intro q
  induction q with
  | nil => rfl
  | cons m ms ih => cases hs : startOk m <;> simp [redrive, hs, ih]

theorem redrive_remaining (startOk : SpecDlqEntry → Bool) :
    ∀ q, (redrive startOk q).remaining = q.filter (fun m => ! startOk m) := by
  intro q
  induction q with
  | nil => rfl
  | cons m ms ih => cases hs : startOk m <;> simp [redrive, hs, ih]

theorem redrive_startCalls (startOk : SpecDlqEntry → Bool) :
    ∀ q, (redrive startOk q).startCalls = q.map (fun m => m.originalInput) := by
  intro q
  induction q with
  | nil => rfl
  | cons m ms ih => cases hs : startOk m <;> simp [redrive, hs, ih]

/-- C9: redrive calls start at least once with the originalInput of every
DLQ message, removes exactly the messages whose start was acknowledged,
leaves the others in place, and returns attempted, succeeded and failed
counts matching the queue. -/
theorem c9_redrive (startOk : SpecDlqEntry → Bool) (queue : List SpecDlqEntry) :
    (redrive startOk queue).counts.attempted = queue.length ∧
    (redrive startOk queue).counts.succeeded = (queue.filter (fun m => startOk m)).length ∧
    (redrive startOk queue).counts.failed = (queue.filter (fun m => ! startOk m)).length ∧
    (redrive startOk queue).remaining = queue.filter (fun m => ! startOk m) ∧
    (redrive startOk queue).startCalls = queue.map (fun m => m.originalInput) ∧
    ∀ m ∈ queue, m.originalInput ∈ (redrive startOk queue).startCalls := by
  refine ⟨redrive_attempted startOk queue, redrive_succeeded startOk queue,
    redrive_failed startOk queue, redrive_remaining startOk queue,
    redrive_startCalls startOk queue, ?_⟩
  intro m hm
  rw [redrive_startCalls startOk queue]
  exact List.mem_map_of_mem _ hm

theorem c9_redrive_witness :
    (redrive ok3 q3).counts.attempted = q3.length ∧
    (redrive ok3 q3).remaining = q3.filter (fun m => ! ok3 m) ∧
    m0.originalInput ∈ (redrive ok3 q3).startCalls :=
  ⟨(c9_redrive ok3 q3).1, (c9_redrive ok3 q3).2.2.2.1,
   (c9_redrive ok3 q3).2.2.2.2.2 m0 (by decide)⟩

end ConstructHub
